import Mathlib

/-! Shallow embedding of the asim/remindme location service (src/remindme.go).

The manager (addContacts, nearContacts, updateLocation) and the ping handler
are translated from src/remindme.go.  The repository uses the external
quadtree package github.com/asim/quadtree, whose code is not part of this
repository; its operations (Insert, Update, KNearest, the bounding box and
point constructors) are modelled from the specification, abstracted to the
stored point set, which determines every observation proved below.  Go
float64 coordinates are modelled as rationals; the opaque point payload,
which the manager only ever sets to a user id string or to nil, is modelled
as an optional string; Go pointer identity of points is modelled by an
allocation tag drawn from a counter in the manager state. -/

namespace RemindMe

/-- Modelled from the spec: a Point is a 2D coordinate pair plus an optional
opaque payload (here a user identifier).  The tag field stands for Go
pointer identity of the allocated point. -/
structure Point where
  x : ℚ
  y : ℚ
  payload : Option String
  tag : ℕ
deriving DecidableEq

/-- Modelled from the spec: an axis-aligned rectangle with min and max
corner coordinates. -/
structure AABB where
  minX : ℚ
  minY : ℚ
  maxX : ℚ
  maxY : ℚ
deriving DecidableEq

/-- Modelled from the spec: the quadtree constructor NewAABB(center, half)
builds the square (or rectangular) window centered at the first argument
with the half-extents given by the second argument; this is the
centerAndHalfExtent constructor of the spec, producing a window of side
twice the half-extent centered on the center. -/
def newAABB (cx cy hx hy : ℚ) : AABB :=
  { minX := cx - hx, minY := cy - hy, maxX := cx + hx, maxY := cy + hy }

/-- Modelled from the spec: membership of a point in a bounding box. -/
def AABB.containsPoint (b : AABB) (p : Point) : Bool :=
  decide (b.minX ≤ p.x) && decide (p.x ≤ b.maxX) &&
    decide (b.minY ≤ p.y) && decide (p.y ≤ b.maxY)

/-- Modelled from the spec: error taxonomy of the spatial index. -/
inductive IndexError where
  | outOfBounds
  | notFound
deriving DecidableEq

/-- Modelled from the spec: the spatial index, abstracted to its root region
and the sequence of stored points.  The hierarchical quadrant structure of
the quadtree only affects internal organisation; the stored point set shown
here determines insertion, relocation and search behavior. -/
structure QuadTree where
  bounds : AABB
  points : List Point
deriving DecidableEq

/-- Modelled from the spec: Insert(point) stores the point, failing with
OutOfBoundsError when the point lies outside the root region (in which case
the index is unchanged, no partial insert). -/
def QuadTree.insert (t : QuadTree) (p : Point) : Except IndexError QuadTree :=
  if t.bounds.containsPoint p then
    .ok { t with points := t.points ++ [p] }
  else
    .error .outOfBounds

/-- Modelled from the spec: Update(oldPoint, newPoint) relocates a stored
point: a no-op fast path when the old coordinates already equal the target
coordinates, NotFoundError when the old point (by identity, here its tag) is
absent, OutOfBoundsError when the new point falls outside the root region,
and otherwise identity-removal of the old point followed by a fresh insert
of the new point. -/
def QuadTree.update (t : QuadTree) (old np : Point) : Except IndexError QuadTree :=
  if old.x = np.x ∧ old.y = np.y then
    .ok t
  else if ¬ t.points.any (fun q => decide (q.tag = old.tag)) then
    .error .notFound
  else if ¬ t.bounds.containsPoint np then
    .error .outOfBounds
  else
    .ok { t with points := (t.points.eraseP fun q => decide (q.tag = old.tag)) ++ [np] }

/-- Stable insertion into a list ordered by the given key; used to model the
ascending-distance ordering of the KNearest candidate set. -/
def insertByKey (key : Point → ℚ) (p : Point) : List Point → List Point
  | [] => [p]
  | q :: qs => if key p < key q then p :: q :: qs else q :: insertByKey key p qs

/-- Insertion sort by the given key. -/
def sortByKey (key : Point → ℚ) : List Point → List Point
  | [] => []
  | p :: ps => insertByKey key p (sortByKey key ps)

/-- Modelled from the spec: KNearest(window, k, filter) gathers the stored
points that lie within the window and satisfy the filter, sorts them
ascending by squared distance from the window center, and truncates to k.
The search never expands the window. -/
def QuadTree.knearest (t : QuadTree) (bb : AABB) (k : ℕ) (filter : Point → Bool) : List Point :=
  let cx := (bb.minX + bb.maxX) / 2
  let cy := (bb.minY + bb.maxY) / 2
  let cands := t.points.filter fun p => bb.containsPoint p && filter p
  (sortByKey (fun p => (p.x - cx) * (p.x - cx) + (p.y - cy) * (p.y - cy)) cands).take k

/-- A user record, from src/remindme.go: id, contact set (a Go map of string
keys, modelled as a duplicate-free list), and the at-most-one active point
in the index. -/
structure User where
  id : String
  contacts : List String
  location : Option Point
deriving DecidableEq

/-- The manager state, from src/remindme.go: the user registry (a Go map,
modelled as a function), the world index, and the allocation counter that
models pointer identity of newly constructed points. -/
structure Manager where
  users : String → Option User
  world : QuadTree
  nextTag : ℕ

/-- From src/remindme.go: the constant nearestContacts = 5. -/
def nearestContacts : ℕ := 5

/-- From src/remindme.go: the constant nearestDistance = 10.0. -/
def nearestDistance : ℚ := 10

/-- From src/remindme.go newWorld: the world region built by
NewAABB(NewPoint(0, 0), NewPoint(85, 185)), i.e. centered at the origin
with half-extents 85 and 185. -/
def newWorld : QuadTree :=
  { bounds := newAABB 0 0 85 185, points := [] }

/-- From src/remindme.go newUser. -/
def newUser (id : String) : User :=
  { id := id, contacts := [], location := none }

/-- From src/remindme.go newManager. -/
def newManager : Manager :=
  { users := fun _ => none, world := newWorld, nextTag := 0 }

/-- Store a user record under the given key of the registry (Go map
assignment). -/
def Manager.setUser (m : Manager) (id : String) (u : User) : Manager :=
  { m with users := fun k => if k = id then some u else m.users k }

/-- One step of the contact loop of addContacts: skip the contact when it is
already present, otherwise add it. -/
def addOne (cs : List String) (c : String) : List String :=
  if c ∈ cs then cs else cs ++ [c]

/-- From src/remindme.go manager.addContacts: create the user when absent,
then union the given contact ids into the contact set. -/
def Manager.addContacts (m : Manager) (id : String) (contacts : List String) : Manager :=
  let u := match m.users id with
    | some u => u
    | none => newUser id
  m.setUser id { u with contacts := contacts.foldl addOne u.contacts }

/-- The result loop of nearContacts, from src/remindme.go: keep the string
payloads of the returned points, skipping payloads that are not strings and
skipping the id of the querying user. -/
def collectContacts (uid : String) : List Point → List String
  | [] => []
  | p :: ps =>
    match p.payload with
    | none => collectContacts uid ps
    | some pid =>
      if pid = uid then collectContacts uid ps else pid :: collectContacts uid ps

/-- From src/remindme.go manager.nearContacts: empty result for an unknown
user or an empty contact set; otherwise a KNearest query on the window
centered at the query position with half-extent nearestDistance, filtered
to points whose payload is a contact of the user, collecting payload ids
and skipping the id of the querying user. -/
def Manager.nearContacts (m : Manager) (id : String) (lat lon : ℚ) : List String :=
  match m.users id with
  | none => []
  | some u =>
    if u.contacts.length = 0 then []
    else
      let filter : Point → Bool := fun p =>
        match p.payload with
        | none => false
        | some s => decide (s ∈ u.contacts)
      let bb := newAABB lat lon nearestDistance nearestDistance
      collectContacts u.id (m.world.knearest bb nearestContacts filter)

/-- Outcome of an index call inside updateLocation: the new world on
success is taken, the error value is kept in the second component for
observation.  The Go code discards exactly this second component. -/
def applyIndexResult (m : Manager) (r : Except IndexError QuadTree) :
    Manager × Option IndexError :=
  match r with
  | .ok t => ({ m with world := t }, none)
  | .error e => (m, some e)

/-- From src/remindme.go manager.updateLocation, instrumented: the second
component is the result that the quadtree Insert or Update call reported.
The Go method discards that result and has no return value, so only the
first component, the new manager state, is visible to callers.  On a first
report the new point (payload: the user id) is assigned to the location
field of the user record before Insert is called; on a relocation the Go
code builds the new point with a nil payload and does not reassign the
location field of the user record. -/
def Manager.updateLocationR (m : Manager) (id : String) (lat lon : ℚ) :
    Manager × Option IndexError :=
  let u := match m.users id with
    | some u => u
    | none => newUser id
  match u.location with
  | none =>
    let p : Point := { x := lat, y := lon, payload := some id, tag := m.nextTag }
    let m1 : Manager := { m.setUser id { u with location := some p } with nextTag := m.nextTag + 1 }
    applyIndexResult m1 (m1.world.insert p)
  | some loc =>
    if loc.x = lat ∧ loc.y = lon then (m, none)
    else
      let np : Point := { x := lat, y := lon, payload := none, tag := m.nextTag }
      let m1 : Manager := { m with nextTag := m.nextTag + 1 }
      applyIndexResult m1 (m1.world.update loc np)

/-- The caller-visible behavior of updateLocation: the Go method returns
nothing, so callers observe only the new manager state. -/
def Manager.updateLocation (m : Manager) (id : String) (lat lon : ℚ) : Manager :=
  (m.updateLocationR id lat lon).1

/-- Outcome written by an HTTP handler: a 400-class error with a message, or
the empty 200 success body. -/
inductive PingOutcome where
  | badRequest (msg : String)
  | okEmpty
deriving DecidableEq

/-- From src/remindme.go pingHandler, with request reading and JSON field
validation abstracted to an optional triple of the extracted fields: a body
that fails validation yields a bad-request outcome and leaves the manager
untouched; a well-formed body is passed to updateLocation and the handler
then returns, writing no error, which produces the empty success
response. -/
def pingHandler (m : Manager) (body : Option (String × ℚ × ℚ)) : PingOutcome × Manager :=
  match body with
  | none => (.badRequest "Bad Request", m)
  | some (id, lat, lon) => (.okEmpty, m.updateLocation id lat lon)

/-- The contact set stored for a user id, empty for an unknown user. -/
def Manager.contactsOf (m : Manager) (id : String) : List String :=
  match m.users id with
  | some u => u.contacts
  | none => []

/-! ### Helper lemmas about the sort used by the KNearest model -/

theorem mem_insertByKey (key : Point → ℚ) (p x : Point) (l : List Point) :
    x ∈ insertByKey key p l ↔ x = p ∨ x ∈ l := by
  induction l with
  | nil => simp [insertByKey]
  | cons q qs ih =>
    by_cases h : key p < key q
    · simp [insertByKey, h]
    · simp only [insertByKey, if_neg h, List.mem_cons, ih]
      tauto

theorem length_insertByKey (key : Point → ℚ) (p : Point) (l : List Point) :
    (insertByKey key p l).length = l.length + 1 := by
  induction l with
  | nil => simp [insertByKey]
  | cons q qs ih =>
    by_cases h : key p < key q
    · simp [insertByKey, h]
    · simp [insertByKey, h, ih]

theorem mem_sortByKey (key : Point → ℚ) (x : Point) (l : List Point) :
    x ∈ sortByKey key l ↔ x ∈ l := by
  induction l with
  | nil => simp [sortByKey]
  | cons q qs ih => simp [sortByKey, mem_insertByKey, ih]

theorem length_sortByKey (key : Point → ℚ) (l : List Point) :
    (sortByKey key l).length = l.length := by
  induction l with
  | nil => simp [sortByKey]
  | cons q qs ih => simp [sortByKey, length_insertByKey, ih]

theorem length_knearest_le (t : QuadTree) (bb : AABB) (k : ℕ) (f : Point → Bool) :
    (t.knearest bb k f).length ≤ k := by
  simp only [QuadTree.knearest]
  exact List.length_take_le k _

theorem mem_knearest (t : QuadTree) (bb : AABB) (k : ℕ) (f : Point → Bool) (p : Point) :
    p ∈ t.knearest bb k f → p ∈ t.points ∧ bb.containsPoint p = true ∧ f p = true := by
  intro hp
  have h1 : p ∈ sortByKey _ (t.points.filter fun q => bb.containsPoint q && f q) :=
    List.take_subset _ _ hp
  have h2 := (mem_sortByKey _ p _).mp h1
  have h3 := List.mem_filter.mp h2
  refine ⟨h3.1, ?_, ?_⟩
  · exact (Bool.and_eq_true _ _ |>.mp h3.2).1
  · exact (Bool.and_eq_true _ _ |>.mp h3.2).2

/-! ### Helper lemmas about the result loop of nearContacts -/

theorem length_collectContacts_le (uid : String) (ps : List Point) :
    (collectContacts uid ps).length ≤ ps.length := by
  induction ps with
  | nil => simp [collectContacts]
  | cons p ps ih =>
    match hp : p.payload with
    | none => simpa [collectContacts, hp] using Nat.le_succ_of_le ih
    | some pid =>
      by_cases h : pid = uid
      · simpa [collectContacts, hp, h] using Nat.le_succ_of_le ih
      · simpa [collectContacts, hp, h] using ih

theorem mem_collectContacts (uid x : String) (ps : List Point) :
    x ∈ collectContacts uid ps → x ≠ uid ∧ ∃ p ∈ ps, p.payload = some x := by
  induction ps with
  | nil => simp [collectContacts]
  | cons p ps ih =>
    match hp : p.payload with
    | none =>
      intro hx
      rcases ih (by simpa [collectContacts, hp] using hx) with ⟨hne, q, hq, hpay⟩
      exact ⟨hne, q, List.mem_cons_of_mem _ hq, hpay⟩
    | some pid =>
      by_cases h : pid = uid
      · intro hx
        rcases ih (by simpa [collectContacts, hp, h] using hx) with ⟨hne, q, hq, hpay⟩
        exact ⟨hne, q, List.mem_cons_of_mem _ hq, hpay⟩
      · intro hx
        rcases (by simpa [collectContacts, hp, h] using hx : x = pid ∨ x ∈ collectContacts uid ps) with
          hx1 | hx2
        · exact ⟨hx1 ▸ h, p, List.mem_cons_self _ _, by simp [hp, hx1]⟩
        · rcases ih hx2 with ⟨hne, q, hq, hpay⟩
          exact ⟨hne, q, List.mem_cons_of_mem _ hq, hpay⟩

/-! ### Helper lemmas about the contact set union -/

theorem mem_addOne (cs : List String) (c x : String) :
    x ∈ addOne cs c ↔ x ∈ cs ∨ x = c := by
  by_cases h : c ∈ cs
  · simp only [addOne, if_pos h]
    constructor
    · exact fun hx => Or.inl hx
    · rintro (hx | rfl)
      · exact hx
      · exact h
  · simp [addOne, if_neg h]

theorem nodup_addOne (cs : List String) (c : String) (h : cs.Nodup) :
    (addOne cs c).Nodup := by
  by_cases hc : c ∈ cs
  · simpa [addOne, if_pos hc] using h
  · simp [addOne, if_neg hc, List.Nodup.append, h, hc]

theorem mem_foldl_addOne (cs : List String) (acc : List String) (x : String) :
    x ∈ cs.foldl addOne acc ↔ x ∈ acc ∨ x ∈ cs := by
  induction cs generalizing acc with
  | nil => simp
  | cons c cs ih =>
    simp only [List.foldl_cons, ih, mem_addOne, List.mem_cons]
    tauto

theorem nodup_foldl_addOne (cs : List String) (acc : List String) (h : acc.Nodup) :
    (cs.foldl addOne acc).Nodup := by
  induction cs generalizing acc with
  | nil => exact h
  | cons c cs ih => exact ih _ (nodup_addOne _ _ h)

theorem users_setUser_self (m : Manager) (id : String) (u : User) :
    (m.setUser id u).users id = some u := by
  simp [Manager.setUser]

theorem contactsOf_addContacts_self (m : Manager) (id : String) (cs : List String) :
    (m.addContacts id cs).contactsOf id = cs.foldl addOne (m.contactsOf id) := by
  match hu : m.users id with
  | some u => simp [Manager.addContacts, Manager.contactsOf, Manager.setUser, hu]
  | none => simp [Manager.addContacts, Manager.contactsOf, Manager.setUser, hu, newUser]

theorem mem_contactsOf_foldl (ls : List (List String)) (m : Manager) (uid x : String) :
    (x ∈ (ls.foldl (fun acc l => acc.addContacts uid l) m).contactsOf uid) ↔
      x ∈ m.contactsOf uid ∨ ∃ l ∈ ls, x ∈ l := by
  induction ls generalizing m with
  | nil => simp
  | cons l ls ih =>
    simp only [List.foldl_cons, ih, contactsOf_addContacts_self, mem_foldl_addOne,
      List.mem_cons]
    constructor
    · rintro ((hx | hx) | ⟨l1, hl1, hx⟩)
      · exact Or.inl hx
      · exact Or.inr ⟨l, Or.inl rfl, hx⟩
      · exact Or.inr ⟨l1, Or.inr hl1, hx⟩
    · rintro (hx | ⟨l1, (rfl | hl1), hx⟩)
      · exact Or.inl (Or.inl hx)
      · exact Or.inl (Or.inr hx)
      · exact Or.inr ⟨l1, hl1, hx⟩

theorem nodup_contactsOf_foldl (ls : List (List String)) (m : Manager) (uid : String)
    (h : (m.contactsOf uid).Nodup) :
    ((ls.foldl (fun acc l => acc.addContacts uid l) m).contactsOf uid).Nodup := by
  induction ls generalizing m with
  | nil => exact h
  | cons l ls ih =>
    refine ih _ ?_
    rw [contactsOf_addContacts_self]
    exact nodup_foldl_addOne _ _ h

/-! ### Claim theorems -/

/-- C4: for every manager state, user id and query position, the sequence
returned by nearContacts has length at most nearestContacts, and the
default value of nearestContacts is 5. -/
theorem nearContacts_length_le (m : Manager) (id : String) (lat lon : ℚ) :
    (m.nearContacts id lat lon).length ≤ nearestContacts ∧ nearestContacts = 5 := by
  refine ⟨?_, rfl⟩
  match hu : m.users id with
  | none => simp [Manager.nearContacts, hu]
  | some u =>
    by_cases hc : u.contacts.length = 0
    · simp [Manager.nearContacts, hu, hc]
    · simp only [Manager.nearContacts, hu, hc, if_false]
      exact le_trans (length_collectContacts_le _ _) (length_knearest_le _ _ _ _)

/-- C5: every id returned by nearContacts is an element of the contact set
of the querying user: the KNearest filter accepts exactly points whose
payload is a string in the contact set, and only such payloads are
collected into the result. -/
theorem nearContacts_subset_contacts (m : Manager) (id : String) (lat lon : ℚ) (x : String) :
    x ∈ m.nearContacts id lat lon → ∃ u, m.users id = some u ∧ x ∈ u.contacts := by
  intro hx
  match hu : m.users id with
  | none => simp [Manager.nearContacts, hu] at hx
  | some u =>
    refine ⟨u, rfl, ?_⟩
    by_cases hc : u.contacts.length = 0
    · simp [Manager.nearContacts, hu, hc] at hx
    · simp only [Manager.nearContacts, hu, hc, if_false] at hx
      rcases mem_collectContacts _ _ _ hx with ⟨hne, p, hp, hpay⟩
      have h3 := (mem_knearest _ _ _ _ _ hp).2.2
      simp only [hpay] at h3
      simpa using h3

/-- C6: the id of the querying user never appears in the result of
nearContacts, even when that id is a member of its own contact set and the
point of the user lies inside the query window. -/
theorem nearContacts_self_excluded (m : Manager) (id : String) (lat lon : ℚ) (u : User)
    (hu : m.users id = some u) : u.id ∉ m.nearContacts id lat lon := by
  intro hx
  by_cases hc : u.contacts.length = 0
  · simp [Manager.nearContacts, hu, hc] at hx
  · simp only [Manager.nearContacts, hu, hc, if_false] at hx
    exact (mem_collectContacts _ _ _ hx).1 rfl

/-- C3: when the querying user is unknown or has an empty contact set,
nearContacts returns the empty sequence as a success, and the result does
not depend on the contents of the spatial index (the index is not
consulted; the operation mutates nothing). -/
theorem nearContacts_short_circuit (m : Manager) (id : String) (lat lon : ℚ)
    (h : ∀ u, m.users id = some u → u.contacts = []) :
    ∀ w : QuadTree, Manager.nearContacts { m with world := w } id lat lon = [] := by
  intro w
  match hu : m.users id with
  | none => simp [Manager.nearContacts, hu]
  | some u => simp [Manager.nearContacts, hu, h u hu]

/-- C7: addContacts has union semantics on the contact set: starting from a
state where the user is unknown, any repetition of the calls
addContacts(u, [a, b]) and addContacts(u, [b, c]) in any order, with each
performed at least once, yields exactly the contact set consisting of a, b
and c with no duplicates; and no addContacts call ever removes a
contact. -/
theorem addContacts_union_semantics (m : Manager) (uid a b c : String)
    (hu : m.users uid = none) (ls : List (List String))
    (hls : ∀ l ∈ ls, l = [a, b] ∨ l = [b, c])
    (h1 : [a, b] ∈ ls) (h2 : [b, c] ∈ ls) :
    (∀ x, (x ∈ (ls.foldl (fun acc l => acc.addContacts uid l) m).contactsOf uid) ↔
        (x = a ∨ x = b ∨ x = c))
      ∧ ((ls.foldl (fun acc l => acc.addContacts uid l) m).contactsOf uid).Nodup
      ∧ ∀ (m1 : Manager) (cs : List String) (x : String),
          x ∈ m1.contactsOf uid → x ∈ (m1.addContacts uid cs).contactsOf uid := by
  have hemp : m.contactsOf uid = [] := by simp [Manager.contactsOf, hu]
  refine ⟨?_, ?_, ?_⟩
  · intro x
    rw [mem_contactsOf_foldl, hemp]
    simp only [List.not_mem_nil, false_or]
    constructor
    · rintro ⟨l, hl, hx⟩
      rcases hls l hl with rfl | rfl <;>
        simp only [List.mem_cons, List.not_mem_nil, or_false] at hx <;> tauto
    · intro hx
      rcases hx with hx | hx | hx
      · exact ⟨[a, b], h1, by simp [hx]⟩
      · exact ⟨[a, b], h1, by simp [hx]⟩
      · exact ⟨[b, c], h2, by simp [hx]⟩
  · exact nodup_contactsOf_foldl _ _ _ (by simp [hemp])
  · intro m1 cs x hx
    rw [contactsOf_addContacts_self, mem_foldl_addOne]
    exact Or.inl hx

/-- Whenever the inner quadtree call of updateLocation reports an error, the
spatial index is left unchanged: every error branch returns the manager
with the original world. -/
theorem applyIndexResult_error (m : Manager) (r : Except IndexError QuadTree)
    (e : IndexError) (he : (applyIndexResult m r).2 = some e) :
    (applyIndexResult m r).1 = m := by
  cases r with
  | ok t => simp [applyIndexResult] at he
  | error e1 => simp [applyIndexResult]

theorem updateLocationR_error_world (m : Manager) (id : String) (lat lon : ℚ)
    (e : IndexError) (he : (m.updateLocationR id lat lon).2 = some e) :
    (m.updateLocationR id lat lon).1.world = m.world := by
  simp only [Manager.updateLocationR] at he ⊢
  rcases hu : m.users id with _ | u <;> simp only [hu, newUser] at he ⊢
  · rw [applyIndexResult_error _ _ _ he]; simp [Manager.setUser]
  · rcases hloc : u.location with _ | loc <;> simp only [hloc] at he ⊢
    · rw [applyIndexResult_error _ _ _ he]; simp [Manager.setUser]
    · by_cases hxy : loc.x = lat ∧ loc.y = lon
      · simp [hxy] at he
      · simp only [hxy, if_false] at he ⊢
        rw [applyIndexResult_error _ _ _ he]

/-- C8: updateLocation is idempotent on coordinates.  When the user already
has an active point with exactly the given coordinates the call returns
without touching the index; consequently, starting from a state that does
not know the user and has no point for the user, two consecutive
updateLocation calls with identical in-bounds coordinates leave exactly one
point for the user in the index, and the second call changes neither the
state nor the total point count. -/
theorem updateLocation_coordinate_idempotent (m : Manager) (id : String) (lat lon : ℚ) :
    (∀ u loc, m.users id = some u → u.location = some loc → loc.x = lat → loc.y = lon →
        m.updateLocation id lat lon = m)
      ∧ (m.users id = none →
          (∀ q ∈ m.world.points, q.payload ≠ some id) →
          m.world.bounds.containsPoint
              { x := lat, y := lon, payload := some id, tag := m.nextTag } = true →
          (m.updateLocation id lat lon).updateLocation id lat lon = m.updateLocation id lat lon
            ∧ ((m.updateLocation id lat lon).world.points.filter
                (fun q => decide (q.payload = some id))).length = 1
            ∧ ((m.updateLocation id lat lon).updateLocation id lat lon).world.points.length
                = (m.updateLocation id lat lon).world.points.length) := by
  constructor
  · intro u loc hu hloc hx hy
    simp [Manager.updateLocation, Manager.updateLocationR, hu, hloc, hx, hy]
  · intro hu hfresh hin
    have hm1 : m.updateLocation id lat lon =
        { users := fun k => if k = id then
            some { id := id, contacts := [],
                   location := some { x := lat, y := lon, payload := some id, tag := m.nextTag } }
            else m.users k,
          world := { bounds := m.world.bounds,
                     points := m.world.points
                       ++ [{ x := lat, y := lon, payload := some id, tag := m.nextTag }] },
          nextTag := m.nextTag + 1 } := by
      simp [Manager.updateLocation, Manager.updateLocationR, hu, newUser, Manager.setUser,
        QuadTree.insert, hin, applyIndexResult]
    have hno : (m.updateLocation id lat lon).updateLocation id lat lon
        = m.updateLocation id lat lon := by
      rw [hm1]
      simp [Manager.updateLocation, Manager.updateLocationR]
    have h0 : m.world.points.filter (fun q => decide (q.payload = some id)) = [] := by
      rw [List.filter_eq_nil_iff]
      intro q hq
      simpa using hfresh q hq
    have hcount : ((m.updateLocation id lat lon).world.points.filter
        (fun q => decide (q.payload = some id))).length = 1 := by
      rw [hm1]
      simp [List.filter_append, h0]
    exact ⟨hno, hcount, by rw [hno]⟩

/-- C1: when updateLocation relocates a user whose stored coordinates
differ from the new position, it calls Update on the index with a newly
constructed point carrying no payload, so the point stored by the
relocation has a nil payload: the resulting index holds the old point set
with the old point removed and the fresh payload-free point appended. -/
theorem updateLocation_relocation_drops_payload (m : Manager) (id : String) (lat lon : ℚ)
    (u : User) (loc : Point) (hu : m.users id = some u) (hloc : u.location = some loc)
    (hne : ¬(loc.x = lat ∧ loc.y = lon))
    (hmem : m.world.points.any (fun q => decide (q.tag = loc.tag)) = true)
    (hin : m.world.bounds.containsPoint
        { x := lat, y := lon, payload := none, tag := m.nextTag } = true) :
    (m.updateLocation id lat lon).world.points
      = (m.world.points.eraseP fun q => decide (q.tag = loc.tag))
        ++ [{ x := lat, y := lon, payload := none, tag := m.nextTag }] := by
  simp [Manager.updateLocation, Manager.updateLocationR, hu, hloc, hne, QuadTree.update,
    applyIndexResult, hmem, hin]

/-- C10: updateLocation discards the result of the index call and returns
nothing to its caller.  On a first location report with out-of-bounds
coordinates, the user record is registered with its location field set to
the new point even though the Insert call failed, so the record references
a point that is not present in the index; the index is unchanged, the
discarded result was OutOfBoundsError, and the ping handler still answers
with the empty success response. -/
theorem updateLocation_dangling_on_oob_insert (m : Manager) (id : String) (lat lon : ℚ)
    (hu : m.users id = none)
    (hfresh : ∀ q ∈ m.world.points, q.tag ≠ m.nextTag)
    (hout : m.world.bounds.containsPoint
        { x := lat, y := lon, payload := some id, tag := m.nextTag } = false) :
    (m.updateLocation id lat lon).users id
        = some { id := id, contacts := [],
                 location := some { x := lat, y := lon, payload := some id, tag := m.nextTag } }
      ∧ { x := lat, y := lon, payload := some id, tag := m.nextTag }
          ∉ (m.updateLocation id lat lon).world.points
      ∧ (m.updateLocation id lat lon).world = m.world
      ∧ (m.updateLocationR id lat lon).2 = some IndexError.outOfBounds
      ∧ (pingHandler m (some (id, lat, lon))).1 = PingOutcome.okEmpty := by
  have hworld : (m.updateLocation id lat lon).world = m.world := by
    simp [Manager.updateLocation, Manager.updateLocationR, hu, newUser, QuadTree.insert, hout,
      applyIndexResult, Manager.setUser]
  refine ⟨?_, ?_, hworld, ?_, rfl⟩
  · simp [Manager.updateLocation, Manager.updateLocationR, hu, newUser, QuadTree.insert, hout,
      applyIndexResult, Manager.setUser]
  · rw [hworld]
    intro hmem
    exact hfresh _ hmem rfl
  · simp [Manager.updateLocationR, hu, newUser, QuadTree.insert, hout, applyIndexResult,
      Manager.setUser]

/-- C2 counterexample: after a first in-bounds report, a relocation to the
out-of-bounds position (1000, 1000) makes the Update call of the index
report OutOfBoundsError, yet the ping handler still answers with the empty
success response: the failure is not surfaced to the caller as a request
validation error, so updateLocation does not fail on OutOfBoundsError as
claimed. -/
theorem pingHandler_not_validation_on_oob :
    ((newManager.updateLocation "u" 1 1).updateLocationR "u" 1000 1000).2
        = some IndexError.outOfBounds
      ∧ (pingHandler (newManager.updateLocation "u" 1 1) (some ("u", 1000, 1000))).1
          = PingOutcome.okEmpty := by
  constructor
  · norm_num +decide [Manager.updateLocation, Manager.updateLocationR, newManager, newUser,
      Manager.setUser, QuadTree.insert, QuadTree.update, AABB.containsPoint, newWorld, newAABB,
      applyIndexResult]
  · rfl

/-- C2 amended: updateLocation never fails.  Its Go signature returns
nothing; the result of the inner Insert or Update call of the index,
including OutOfBoundsError, is discarded, the index is left unchanged on
any reported error, and the ping handler answers every well-formed request
with the empty success response. -/
theorem updateLocation_never_fails (m : Manager) (id : String) (lat lon : ℚ) :
    (pingHandler m (some (id, lat, lon))).1 = PingOutcome.okEmpty
      ∧ ∀ e, (m.updateLocationR id lat lon).2 = some e →
          (m.updateLocation id lat lon).world = m.world :=
  ⟨rfl, fun e he => updateLocationR_error_world m id lat lon e he⟩

/-! ### Concrete states used by the witnesses -/

/-- Concrete state for the C5 witness: user a has contact b and the point
of b is stored in the index at (1, 1). -/
def mNearC5 : Manager :=
  { users := fun k =>
      if k = "a" then some { id := "a", contacts := ["b"], location := none }
      else if k = "b" then
        some { id := "b", contacts := [],
               location := some { x := 1, y := 1, payload := some "b", tag := 0 } }
      else none,
    world := { bounds := newAABB 0 0 85 185,
               points := [{ x := 1, y := 1, payload := some "b", tag := 0 }] },
    nextTag := 1 }

/-- Concrete state for the C6 witness: user a lists itself as a contact and
its own point is stored in the index at the query position. -/
def mSelfC6 : Manager :=
  { users := fun k =>
      if k = "a" then
        some { id := "a", contacts := ["a"],
               location := some { x := 1, y := 1, payload := some "a", tag := 0 } }
      else none,
    world := { bounds := newAABB 0 0 85 185,
               points := [{ x := 1, y := 1, payload := some "a", tag := 0 }] },
    nextTag := 1 }

/-- Concrete index contents for the C3 witness: one point that would match
the query window if the index were consulted. -/
def wOneC3 : QuadTree :=
  { bounds := newAABB 0 0 85 185,
    points := [{ x := 1, y := 1, payload := some "q", tag := 0 }] }

/-! ### Witnesses -/

/-- C5 witness: on a concrete state the query for user a returns b, and b
is an element of the contact set of a. -/
theorem nearContacts_subset_contacts_witness :
    "b" ∈ mNearC5.nearContacts "a" 1 1
      ∧ ∃ u, mNearC5.users "a" = some u ∧ "b" ∈ u.contacts := by
  have hb : "b" ∈ mNearC5.nearContacts "a" 1 1 := by
    norm_num +decide [mNearC5, Manager.nearContacts, QuadTree.knearest, AABB.containsPoint,
      newAABB, nearestContacts, nearestDistance, sortByKey, insertByKey, collectContacts]
  exact ⟨hb, nearContacts_subset_contacts mNearC5 "a" 1 1 "b" hb⟩

/-- C6 witness: user a is its own contact and is co-located with the query
position, yet the id a does not appear in the result. -/
theorem nearContacts_self_excluded_witness :
    mSelfC6.users "a"
        = some { id := "a", contacts := ["a"],
                 location := some { x := 1, y := 1, payload := some "a", tag := 0 } }
      ∧ "a" ∉ mSelfC6.nearContacts "a" 1 1 := by
  have hu : mSelfC6.users "a"
      = some { id := "a", contacts := ["a"],
               location := some { x := 1, y := 1, payload := some "a", tag := 0 } } := by
    simp +decide [mSelfC6]
  exact ⟨hu, nearContacts_self_excluded mSelfC6 "a" 1 1 _ hu⟩

/-- C3 witness: an unknown user queried against a non-empty index yields
the empty sequence. -/
theorem nearContacts_short_circuit_witness :
    newManager.users "x" = none
      ∧ Manager.nearContacts { newManager with world := wOneC3 } "x" 1 1 = [] := by
  refine ⟨rfl, nearContacts_short_circuit newManager "x" 1 1 ?_ wOneC3⟩
  intro u hu
  simp [newManager] at hu

/-- C7 witness: the calls addContacts(u, [a, b]), addContacts(u, [b, c]),
addContacts(u, [a, b]) on a fresh user leave the duplicate-free contact set
containing a, b and c and nothing else. -/
theorem addContacts_union_semantics_witness :
    (([["a", "b"], ["b", "c"], ["a", "b"]].foldl
        (fun acc l => acc.addContacts "u" l) newManager).contactsOf "u").Nodup
      ∧ "a" ∈ ([["a", "b"], ["b", "c"], ["a", "b"]].foldl
          (fun acc l => acc.addContacts "u" l) newManager).contactsOf "u"
      ∧ "c" ∈ ([["a", "b"], ["b", "c"], ["a", "b"]].foldl
          (fun acc l => acc.addContacts "u" l) newManager).contactsOf "u"
      ∧ "d" ∉ ([["a", "b"], ["b", "c"], ["a", "b"]].foldl
          (fun acc l => acc.addContacts "u" l) newManager).contactsOf "u" := by
  have H := addContacts_union_semantics newManager "u" "a" "b" "c" rfl
      [["a", "b"], ["b", "c"], ["a", "b"]] (by decide) (by decide) (by decide)
  refine ⟨H.2.1, (H.1 "a").mpr (Or.inl rfl), (H.1 "c").mpr (Or.inr (Or.inr rfl)), ?_⟩
  intro hd
  have hor := (H.1 "d").mp hd
  revert hor
  decide

/-- C8 witness: two consecutive updateLocation calls for a fresh user with
identical in-bounds coordinates: the second call is a no-op, and the index
holds exactly one point for the user. -/
theorem updateLocation_coordinate_idempotent_witness :
    (newManager.updateLocation "x" 1 1).updateLocation "x" 1 1
        = newManager.updateLocation "x" 1 1
      ∧ ((newManager.updateLocation "x" 1 1).world.points.filter
          (fun q => decide (q.payload = some "x"))).length = 1
      ∧ ((newManager.updateLocation "x" 1 1).updateLocation "x" 1 1).world.points.length
          = (newManager.updateLocation "x" 1 1).world.points.length := by
  have hin : newManager.world.bounds.containsPoint
      { x := 1, y := 1, payload := some "x", tag := newManager.nextTag } = true := by
    norm_num +decide [newManager, newWorld, newAABB, AABB.containsPoint]
  exact (updateLocation_coordinate_idempotent newManager "x" 1 1).2 rfl
    (by simp [newManager, newWorld]) hin

/-- C1 witness: the user u first reports (1, 1) and then relocates to
(2, 3); the index afterwards holds exactly the fresh point at (2, 3) with a
nil payload. -/
theorem updateLocation_relocation_drops_payload_witness :
    ((newManager.updateLocation "u" 1 1).updateLocation "u" 2 3).world.points
      = [{ x := 2, y := 3, payload := none, tag := 1 }] := by
  have hu : (newManager.updateLocation "u" 1 1).users "u"
      = some { id := "u", contacts := [],
               location := some { x := 1, y := 1, payload := some "u", tag := 0 } } := by
    norm_num +decide [Manager.updateLocation, Manager.updateLocationR, newManager, newUser,
      Manager.setUser, QuadTree.insert, AABB.containsPoint, newWorld, newAABB, applyIndexResult]
  have hmem : (newManager.updateLocation "u" 1 1).world.points.any
      (fun q => decide (q.tag = (0 : ℕ))) = true := by
    norm_num +decide [Manager.updateLocation, Manager.updateLocationR, newManager, newUser,
      Manager.setUser, QuadTree.insert, AABB.containsPoint, newWorld, newAABB, applyIndexResult]
  have hin : (newManager.updateLocation "u" 1 1).world.bounds.containsPoint
      { x := 2, y := 3, payload := none,
        tag := (newManager.updateLocation "u" 1 1).nextTag } = true := by
    norm_num +decide [Manager.updateLocation, Manager.updateLocationR, newManager, newUser,
      Manager.setUser, QuadTree.insert, AABB.containsPoint, newWorld, newAABB, applyIndexResult]
  have H := updateLocation_relocation_drops_payload (newManager.updateLocation "u" 1 1)
    "u" 2 3 _ _ hu rfl (by norm_num) hmem hin
  rw [H]
  norm_num +decide [Manager.updateLocation, Manager.updateLocationR, newManager, newUser,
    Manager.setUser, QuadTree.insert, AABB.containsPoint, newWorld, newAABB, applyIndexResult,
    List.eraseP_cons]

/-- C10 witness: a first report at the out-of-bounds position (1000, 0)
registers the user with a location point that is absent from the unchanged
index, the discarded index result was OutOfBoundsError, and the ping
handler answers with the empty success response. -/
theorem updateLocation_dangling_on_oob_insert_witness :
    (newManager.updateLocation "u" 1000 0).users "u"
        = some { id := "u", contacts := [],
                 location := some { x := 1000, y := 0, payload := some "u", tag := 0 } }
      ∧ ({ x := (1000 : ℚ), y := 0, payload := some "u", tag := 0 } : Point)
          ∉ (newManager.updateLocation "u" 1000 0).world.points
      ∧ (newManager.updateLocation "u" 1000 0).world = newManager.world
      ∧ (newManager.updateLocationR "u" 1000 0).2 = some IndexError.outOfBounds
      ∧ (pingHandler newManager (some ("u", 1000, 0))).1 = PingOutcome.okEmpty := by
  have hout : newManager.world.bounds.containsPoint
      { x := 1000, y := 0, payload := some "u", tag := newManager.nextTag } = false := by
    norm_num +decide [newManager, newWorld, newAABB, AABB.containsPoint]
  exact updateLocation_dangling_on_oob_insert newManager "u" 1000 0 rfl
    (by simp [newManager, newWorld]) hout

/-- C2 amended witness: for the out-of-bounds first report (1000, 0) on a
fresh manager, the handler answers with the empty success response and the
index is unchanged even though the inner index call failed. -/
theorem updateLocation_never_fails_witness :
    (pingHandler newManager (some ("u", 1000, 0))).1 = PingOutcome.okEmpty
      ∧ (newManager.updateLocation "u" 1000 0).world = newManager.world := by
  have he : (newManager.updateLocationR "u" 1000 0).2 = some IndexError.outOfBounds := by
    norm_num +decide [Manager.updateLocationR, newManager, newUser, Manager.setUser,
      QuadTree.insert, AABB.containsPoint, newWorld, newAABB, applyIndexResult]
  exact ⟨(updateLocation_never_fails newManager "u" 1000 0).1,
    (updateLocation_never_fails newManager "u" 1000 0).2 IndexError.outOfBounds he⟩

end RemindMe
